import Mathlib

/-!
Verification of the WaterCI simple-executor (`src/main.rs`): the registration
handshake, the message-dispatch loop, the error classifier and the
configuration defaulting, embedded shallowly.

The executor abstraction (`SimpleDockerExecutor` from `waterlib`) and the wire
codec are external collaborators: the embedding is parametric over the job
type `J`, the job-result payload type `R`, the executor state type `σ` and the
execution-error type `ε`, and over the executor's `new`/`execute` functions.
Incoming traffic is modelled as a list of read results (a decoded message or a
decode error), and the loop produces a trace of events: executor invocations
(with the executor state used) and messages written to the stream.
-/

namespace SimpleExecutor

universe u v w x

/-- `RepoConfig` carried inside a `BuildRequest`: the ordered job list. -/
structure RepoConfig (J : Type u) where
  jobs : List J
  deriving DecidableEq, Repr

/-- Payload of `ExecutorMessage::BuildRequest`. -/
structure BuildRequestMessage (J : Type u) where
  repo_url : String
  reference : String
  repo_config : RepoConfig J
  deriving DecidableEq, Repr

/-- `waterlib::net::JobBuildRequestMessage`: one job paired with the shared
repository context, built per job in the dispatch loop. -/
structure JobBuildRequestMessage (J : Type u) where
  repo_url : String
  reference : String
  job : J
  deriving DecidableEq, Repr

/-- `waterlib::net::ExecutorStatus`. The source only ever sends `Available`;
the constructor `Other` models the spec's statement that the enum is
otherwise open for future values. -/
inductive ExecutorStatus : Type
  | Available : ExecutorStatus
  | Other : String → ExecutorStatus
  deriving DecidableEq, Repr

/-- `waterlib::net::ExecutorMessage`: the tagged union exchanged on the wire. -/
inductive ExecutorMessage (J : Type u) (R : Type v) : Type (max u v)
  | ExecutorRegister : ExecutorMessage J R
  | ExecutorRegisterResponse (id : String) : ExecutorMessage J R
  | BuildRequest (req : BuildRequestMessage J) : ExecutorMessage J R
  | JobResult (res : R) : ExecutorMessage J R
  | ExecutorStatusQuery : ExecutorMessage J R
  | ExecutorStatusResponse (status : ExecutorStatus) : ExecutorMessage J R
  | CloseConnection (id : String) : ExecutorMessage J R
  deriving DecidableEq, Repr

/-- `std::io::ErrorKind`, restricted to the kinds the classifier inspects;
every other kind is collapsed into `OtherKind`. -/
inductive IOErrorKind : Type
  | ConnectionReset : IOErrorKind
  | ConnectionAborted : IOErrorKind
  | UnexpectedEof : IOErrorKind
  | OtherKind (name : String) : IOErrorKind
  deriving DecidableEq, Repr

/-- `rmp_serde::decode::Error`, restricted to the shape the classifier
matches on: `InvalidMarkerRead` is an I/O failure on the very first byte of a
message (while waiting for the next command), `InvalidDataRead` an I/O
failure mid-message, and `OtherError` collapses every remaining variant
(type mismatch, syntax, out of range, …). -/
inductive DecodeError : Type
  | InvalidMarkerRead (kind : IOErrorKind) : DecodeError
  | InvalidDataRead (kind : IOErrorKind) : DecodeError
  | OtherError (description : String) : DecodeError
  deriving DecidableEq, Repr

/-- The outcome of one blocking `ExecutorMessage::deserialize` call on the
stream: a decoded message or a decode error. -/
inductive ReadResult (J : Type u) (R : Type v) : Type (max u v)
  | ok (msg : ExecutorMessage J R) : ReadResult J R
  | err (e : DecodeError) : ReadResult J R
  deriving DecidableEq, Repr

/-- `SimpleDockerExecutorConfig {}` — the (empty) configuration the loop
passes to `SimpleDockerExecutor::new` for every `BuildRequest`. -/
structure SimpleDockerExecutorConfig : Type where
  deriving DecidableEq, Repr

/-- An observable event of the run: an invocation of the executor
abstraction (recording the executor state it was called on), or a message
written to the connection. -/
inductive Event (σ : Type w) (J : Type u) (R : Type v) : Type (max u v w)
  | exec (st : σ) (req : JobBuildRequestMessage J) : Event σ J R
  | send (msg : ExecutorMessage J R) : Event σ J R
  deriving DecidableEq, Repr

/-- How one loop iteration ends. `cont` returns to the top of the loop
(`Idle`) after emitting `events`; `close` is the `CloseConnection` break;
`disconnect` is the classified graceful-disconnect break; `panicStop` is a
`panic!` (process aborts); `execError` is a failed `executor.execute(...)?`
propagating out of `run` after the events already emitted. -/
inductive StepResult (σ : Type w) (J : Type u) (R : Type v) (ε : Type x) :
    Type (max u v w x)
  | cont (events : List (Event σ J R)) : StepResult σ J R ε
  | close : StepResult σ J R ε
  | disconnect : StepResult σ J R ε
  | panicStop : StepResult σ J R ε
  | execError (events : List (Event σ J R)) (e : ε) : StepResult σ J R ε

/-- The error classifier of the dispatch loop's `Err` arm: an
`InvalidMarkerRead` with kind `ConnectionReset`, `ConnectionAborted` or
`UnexpectedEof` breaks the loop (graceful disconnect); any other marker-read
kind and any other decode error panics. -/
def classifyError (σ : Type w) (J : Type u) (R : Type v) (ε : Type x) :
    DecodeError → StepResult σ J R ε
  | .InvalidMarkerRead .ConnectionReset => .disconnect
  | .InvalidMarkerRead .ConnectionAborted => .disconnect
  | .InvalidMarkerRead .UnexpectedEof => .disconnect
  | .InvalidMarkerRead (.OtherKind _) => .panicStop
  | .InvalidDataRead _ => .panicStop
  | .OtherError _ => .panicStop

section Loop

variable {σ : Type w} {J : Type u} {R : Type v} {ε : Type x}

/-- The `for job in req.repo_config.jobs` body: pair the job with the shared
repository context, invoke the executor synchronously, and on success write
the `JobResult` before moving to the next job; on failure stop at once (the
`?` operator), keeping the events already produced. The executor state
threads through the jobs of one request. -/
def runJobs (execute : σ → JobBuildRequestMessage J → Except ε (R × σ))
    (repo_url reference : String) :
    σ → List J → List (Event σ J R) × Option ε
  | _, [] => ([], none)
  | st, job :: rest =>
    match execute st (JobBuildRequestMessage.mk repo_url reference job) with
    | .ok (res, st') =>
      (Event.exec st (JobBuildRequestMessage.mk repo_url reference job) ::
        Event.send (ExecutorMessage.JobResult res) ::
          (runJobs execute repo_url reference st' rest).1,
        (runJobs execute repo_url reference st' rest).2)
    | .error e =>
      ([Event.exec st (JobBuildRequestMessage.mk repo_url reference job)],
        some e)

/-- One iteration of the dispatch loop from `Idle`: read one message and
react as the `match` in `run` does. A fresh executor
`SimpleDockerExecutor::new(SimpleDockerExecutorConfig {})` is constructed
for each `BuildRequest`. -/
def step (new : SimpleDockerExecutorConfig → σ)
    (execute : σ → JobBuildRequestMessage J → Except ε (R × σ)) :
    ReadResult J R → StepResult σ J R ε
  | .ok (.BuildRequest req) =>
    match runJobs execute req.repo_url req.reference
        (new SimpleDockerExecutorConfig.mk) req.repo_config.jobs with
    | (events, none) => .cont events
    | (events, some e) => .execError events e
  | .ok .ExecutorStatusQuery =>
    .cont [Event.send (ExecutorMessage.ExecutorStatusResponse
      ExecutorStatus.Available)]
  | .ok (.CloseConnection _) => .close
  | .ok _ => .panicStop
  | .err e => classifyError σ J R ε e

/-- How the whole post-handshake run ends: `ok` is `run` returning `Ok(())`
(loop left by `CloseConnection` or graceful disconnect), `panicked` a
`panic!`, `execFailed` `run` returning the propagated execution error, and
`blocked` the loop still waiting on the next message when the modelled
input list is exhausted. -/
inductive RunOutcome (ε : Type x) : Type x
  | ok : RunOutcome ε
  | panicked : RunOutcome ε
  | execFailed (e : ε) : RunOutcome ε
  | blocked : RunOutcome ε
  deriving DecidableEq

/-- The dispatch loop: consume read results one at a time from `Idle`,
accumulating the event trace, until the loop breaks, aborts, or the modelled
input is exhausted. -/
def dispatchLoop (new : SimpleDockerExecutorConfig → σ)
    (execute : σ → JobBuildRequestMessage J → Except ε (R × σ)) :
    List (ReadResult J R) → List (Event σ J R) × RunOutcome ε
  | [] => ([], .blocked)
  | r :: rest =>
    match step new execute r with
    | .cont events =>
      (events ++ (dispatchLoop new execute rest).1,
        (dispatchLoop new execute rest).2)
    | .close => ([], .ok)
    | .disconnect => ([], .ok)
    | .panicStop => ([], .panicked)
    | .execError events e => (events, .execFailed e)

/-- The full `run`: send `ExecutorRegister`, block reading exactly one
message which must decode to `ExecutorRegisterResponse{id}` (anything else —
other variant or decode failure — panics before any further write), bind the
session to `id`, then enter the dispatch loop. Returns the event trace, the
bound identity (if the handshake completed) and the outcome. -/
def run (new : SimpleDockerExecutorConfig → σ)
    (execute : σ → JobBuildRequestMessage J → Except ε (R × σ)) :
    List (ReadResult J R) →
      List (Event σ J R) × Option String × RunOutcome ε
  | [] => ([Event.send ExecutorMessage.ExecutorRegister], none, .blocked)
  | r :: rest =>
    match r with
    | .ok (.ExecutorRegisterResponse id) =>
      (Event.send ExecutorMessage.ExecutorRegister ::
        (dispatchLoop new execute rest).1, some id,
        (dispatchLoop new execute rest).2)
    | _ =>
      ([Event.send ExecutorMessage.ExecutorRegister], none, .panicked)

/-- The process exit status implied by the run outcome, per `main`:
`Ok(_)` falls through to a normal exit (0), a propagated error hits
`exit(1)`, and a panic aborts the process with the Rust panic status 101.
`none` for a run still blocked on input. -/
def exitCode : RunOutcome ε → Option Nat
  | .ok => some 0
  | .panicked => some 101
  | .execFailed _ => some 1
  | .blocked => none

/-- The messages written on the connection, in order, read off an event
trace. -/
def sentMessages : List (Event σ J R) → List (ExecutorMessage J R)
  | [] => []
  | Event.exec _ _ :: rest => sentMessages rest
  | Event.send m :: rest => m :: sentMessages rest

/-- The executor invocations, in order, read off an event trace. -/
def execCalls : List (Event σ J R) → List (σ × JobBuildRequestMessage J)
  | [] => []
  | Event.exec st req :: rest => (st, req) :: execCalls rest
  | Event.send _ :: rest => execCalls rest

/-- Specification-side trace of a fully successful job sequence: the
executor state each job is invoked on, the result it returns, and the final
state, with the state threaded from job to job. `none` if any job fails. -/
def jobTrace (execute : σ → JobBuildRequestMessage J → Except ε (R × σ))
    (repo_url reference : String) :
    σ → List J → Option (List (σ × R) × σ)
  | st, [] => some ([], st)
  | st, job :: rest =>
    match execute st (JobBuildRequestMessage.mk repo_url reference job) with
    | .ok (res, st') =>
      match jobTrace execute repo_url reference st' rest with
      | some (pairs, stFinal) => some ((st, res) :: pairs, stFinal)
      | none => none
    | .error _ => none

/-- Specification-side expected event trace of a successful `BuildRequest`:
for each job, one executor invocation immediately followed by one
`JobResult` write. -/
def buildEvents (repo_url reference : String) (jobs : List J)
    (pairs : List (σ × R)) : List (Event σ J R) :=
  (jobs.zip pairs).flatMap fun p =>
    [Event.exec p.2.1 (JobBuildRequestMessage.mk repo_url reference p.1),
      Event.send (ExecutorMessage.JobResult p.2.2)]

/-- A read result whose step returns to `Idle` (neither breaks the loop nor
aborts): `BuildRequest` with all jobs succeeding, or `StatusQuery`. -/
def stepContinues (new : SimpleDockerExecutorConfig → σ)
    (execute : σ → JobBuildRequestMessage J → Except ε (R × σ))
    (r : ReadResult J R) : Bool :=
  match step new execute r with
  | .cont _ => true
  | _ => false

end Loop

/-! ## Configuration (`Config`, `get_config`) -/

/-- The relevant process environment: the values of `WATERCI_CORE_HOST` and
`WATERCI_CORE_PORT`, if set. -/
structure Env : Type where
  core_host : Option String
  core_port : Option String
  deriving DecidableEq, Repr

/-- The executor's `Config`: core server host and port (a `u32` in the
source, modelled as a `Nat` bounded by the `u32` range at parse time). -/
structure Config : Type where
  core_host : String
  core_port : Nat
  deriving DecidableEq, Repr

/-- Decimal-digit accumulation over a character list: fails on the first
non-digit character. -/
def parseDigitsAux : List Char → Nat → Option Nat
  | [], acc => some acc
  | c :: cs, acc =>
    if c.isDigit then parseDigitsAux cs (acc * 10 + (c.toNat - 48)) else none

/-- A non-empty run of decimal digits, as a number. -/
def parseDigits : List Char → Option Nat
  | [] => none
  | cs => parseDigitsAux cs 0

/-- Rust's `str::parse::<u32>`: an optional leading `+` sign followed by one
or more ASCII digits, value within the `u32` range; anything else fails. -/
def parseU32 (s : String) : Option Nat :=
  let ds := match s.data with
    | c :: cs => if c = '+' then cs else c :: cs
    | [] => []
  match parseDigits ds with
  | some n => if n ≤ 4294967295 then some n else none
  | none => none

/-- `Config::default_core_host`: the `WATERCI_CORE_HOST` environment
variable if set, else the loopback host. -/
def default_core_host : Option String → String
  | some host => host
  | none => "127.0.0.1"

/-- `Config::default_core_port`: the `WATERCI_CORE_PORT` environment
variable if set and it parses as a `u32`, else 5633 (also when the variable
is set but fails to parse — the `Err(_) => {}` arm falls through). -/
def default_core_port : Option String → Nat
  | some port =>
    match parseU32 port with
    | some i => i
    | none => 5633
  | none => 5633

/-- `Config::default()`: both fields from their defaulting functions. -/
def Config.default (env : Env) : Config :=
  Config.mk (default_core_host env.core_host)
    (default_core_port env.core_port)

/-- Whether the configuration file exists at the given path, and its
contents when it does. -/
inductive FileState : Type
  | absent : FileState
  | present (contents : String) : FileState
  deriving DecidableEq, Repr

/-- `get_config`: if the file exists, read it and parse it as YAML (the
parser is an external collaborator, taken as a parameter); if it does not
exist, return `Config::default()` — never a failure. -/
def get_config (parseYaml : String → Except String Config) (env : Env) :
    FileState → Except String Config
  | .absent => .ok (Config.default env)
  | .present contents => parseYaml contents

/-! ## Specification-side predicates and concrete instances -/

section Threaded

variable {σ : Type w} {J : Type u} {R : Type v} {ε : Type x}

/-- A list of executor invocations (state, request) is threaded from `st`:
the first invocation runs on `st`, and each later one runs on the state the
previous invocation returned (the same executor instance, mutated in
place); after a failing invocation no further invocation happens. -/
def threaded (execute : σ → JobBuildRequestMessage J → Except ε (R × σ)) :
    σ → List (σ × JobBuildRequestMessage J) → Prop
  | _, [] => True
  | st, c :: rest =>
    c.1 = st ∧
      (∀ res st', execute c.1 c.2 = Except.ok (res, st') →
        threaded execute st' rest) ∧
      (∀ e, execute c.1 c.2 = Except.error e → rest = [])

end Threaded

/-- A concrete executor-state constructor for instantiating the parametric
results: the fresh state is `7`. -/
def demoNew (_ : SimpleDockerExecutorConfig) : Nat := 7

/-- A concrete always-succeeding executor: the result is `state + job`, the
next state is `state + 1`. -/
def demoExec (st : Nat) (req : JobBuildRequestMessage Nat) :
    Except Nat (Nat × Nat) :=
  Except.ok (st + req.job, st + 1)

/-- A concrete executor that fails exactly on job `5` (with error `9`) and
otherwise behaves like `demoExec`. -/
def demoFailExec (st : Nat) (req : JobBuildRequestMessage Nat) :
    Except Nat (Nat × Nat) :=
  if req.job = 5 then Except.error 9 else Except.ok (st + req.job, st + 1)

/-- A concrete stand-in for the external YAML parser. -/
def demoParseYaml (contents : String) : Except String Config :=
  Except.error contents

/-! ## Helper lemmas -/

section Lemmas

variable {σ : Type w} {J : Type u} {R : Type v} {ε : Type x}
variable (new : SimpleDockerExecutorConfig → σ)
variable (execute : σ → JobBuildRequestMessage J → Except ε (R × σ))

lemma jobTrace_length (repo_url reference : String) :
    ∀ (jobs : List J) (st : σ) (pairs : List (σ × R)) (stF : σ),
      jobTrace execute repo_url reference st jobs = some (pairs, stF) →
      pairs.length = jobs.length := by
  intro jobs
  induction jobs with
  | nil =>
    intro st pairs stF h
    simp only [jobTrace, Option.some.injEq, Prod.mk.injEq] at h
    simp [← h.1]
  | cons j rest ih =>
    intro st pairs stF h
    simp only [jobTrace] at h
    cases hx : execute st (JobBuildRequestMessage.mk repo_url reference j) with
    | ok pr =>
      obtain ⟨res, st'⟩ := pr
      rw [hx] at h
      simp only at h
      cases htr : jobTrace execute repo_url reference st' rest with
      | none => rw [htr] at h; simp at h
      | some q =>
        obtain ⟨pairs', stF'⟩ := q
        rw [htr] at h
        simp only [Option.some.injEq, Prod.mk.injEq] at h
        obtain ⟨h1, _⟩ := h
        simp [← h1, ih st' pairs' stF' htr]
    | error e =>
      rw [hx] at h
      simp at h

lemma runJobs_append (repo_url reference : String) :
    ∀ (pre more : List J) (st : σ) (pairs : List (σ × R)) (stF : σ),
      jobTrace execute repo_url reference st pre = some (pairs, stF) →
      runJobs execute repo_url reference st (pre ++ more) =
        (buildEvents repo_url reference pre pairs ++
           (runJobs execute repo_url reference stF more).1,
         (runJobs execute repo_url reference stF more).2) := by
  intro pre
  induction pre with
  | nil =>
    intro more st pairs stF h
    simp only [jobTrace, Option.some.injEq, Prod.mk.injEq] at h
    obtain ⟨h1, h2⟩ := h
    subst h2
    simp [buildEvents, ← h1]
  | cons j rest ih =>
    intro more st pairs stF h
    simp only [jobTrace] at h
    cases hx : execute st (JobBuildRequestMessage.mk repo_url reference j) with
    | ok pr =>
      obtain ⟨res, st'⟩ := pr
      rw [hx] at h
      simp only at h
      cases htr : jobTrace execute repo_url reference st' rest with
      | none => rw [htr] at h; simp at h
      | some q =>
        obtain ⟨pairs', stF'⟩ := q
        rw [htr] at h
        simp only [Option.some.injEq, Prod.mk.injEq] at h
        obtain ⟨h1, h2⟩ := h
        subst h2
        simp only [List.cons_append, runJobs, hx, List.append_eq]
        rw [ih more st' pairs' stF' htr]
        simp [buildEvents, ← h1]
    | error e =>
      rw [hx] at h
      simp at h

lemma runJobs_of_jobTrace (repo_url reference : String)
    (jobs : List J) (st : σ) (pairs : List (σ × R)) (stF : σ)
    (h : jobTrace execute repo_url reference st jobs = some (pairs, stF)) :
    runJobs execute repo_url reference st jobs =
      (buildEvents repo_url reference jobs pairs, none) := by
  have happ := runJobs_append execute repo_url reference jobs [] st pairs stF h
  simpa [runJobs] using happ

lemma sentMessages_append :
    ∀ (a b : List (Event σ J R)),
      sentMessages (a ++ b) = sentMessages a ++ sentMessages b := by
  intro a b
  induction a with
  | nil => simp [sentMessages]
  | cons e rest ih => cases e <;> simp [sentMessages, ih]

lemma sentMessages_buildEvents (repo_url reference : String) :
    ∀ (jobs : List J) (pairs : List (σ × R)), pairs.length = jobs.length →
      sentMessages (buildEvents repo_url reference jobs pairs) =
        pairs.map fun p => ExecutorMessage.JobResult p.2 := by
  intro jobs
  induction jobs with
  | nil =>
    intro pairs h
    rw [List.length_nil, List.length_eq_zero] at h
    simp [h, buildEvents, sentMessages]
  | cons j rest ih =>
    intro pairs h
    cases pairs with
    | nil => simp at h
    | cons p ps =>
      simp only [List.length_cons, Nat.add_right_cancel_iff] at h
      have hstep : buildEvents repo_url reference (j :: rest) (p :: ps) =
          Event.exec p.1 (JobBuildRequestMessage.mk repo_url reference j) ::
            Event.send (ExecutorMessage.JobResult p.2) ::
              buildEvents repo_url reference rest ps := by
        simp [buildEvents]
      rw [hstep]
      simp [sentMessages, ih ps h]

lemma classifyError_panic (e : DecodeError)
    (h : ∀ k, e = DecodeError.InvalidMarkerRead k →
      ¬(k = IOErrorKind.ConnectionReset ∨ k = IOErrorKind.ConnectionAborted ∨
        k = IOErrorKind.UnexpectedEof)) :
    classifyError σ J R ε e = StepResult.panicStop := by
  cases e with
  | InvalidMarkerRead k =>
    cases k with
    | ConnectionReset => exact absurd (Or.inl rfl) (h _ rfl)
    | ConnectionAborted => exact absurd (Or.inr (Or.inl rfl)) (h _ rfl)
    | UnexpectedEof => exact absurd (Or.inr (Or.inr rfl)) (h _ rfl)
    | OtherKind s => rfl
  | InvalidDataRead k => rfl
  | OtherError s => rfl

lemma dispatchLoop_append :
    ∀ (rs1 rs2 : List (ReadResult J R)),
      (∀ r ∈ rs1, stepContinues new execute r = true) →
      dispatchLoop new execute (rs1 ++ rs2) =
        ((dispatchLoop new execute rs1).1 ++ (dispatchLoop new execute rs2).1,
          (dispatchLoop new execute rs2).2) := by
  intro rs1
  induction rs1 with
  | nil =>
    intro rs2 _
    simp [dispatchLoop]
  | cons r rest ih =>
    intro rs2 hc
    have hr := hc r (by simp)
    have hrest : ∀ x ∈ rest, stepContinues new execute x = true :=
      fun x hx => hc x (by simp [hx])
    cases hs : step new execute r with
    | cont events =>
      simp only [List.cons_append, dispatchLoop, hs, List.append_eq]
      rw [ih rs2 hrest]
      simp [List.append_assoc]
    | close => simp [stepContinues, hs] at hr
    | disconnect => simp [stepContinues, hs] at hr
    | panicStop => simp [stepContinues, hs] at hr
    | execError events e => simp [stepContinues, hs] at hr

lemma runJobs_no_status (repo_url reference : String) :
    ∀ (jobs : List J) (st : σ) (s : ExecutorStatus),
      Event.send (ExecutorMessage.ExecutorStatusResponse s) ∈
        (runJobs execute repo_url reference st jobs).1 → False := by
  intro jobs
  induction jobs with
  | nil =>
    intro st s h
    simp [runJobs] at h
  | cons j rest ih =>
    intro st s h
    simp only [runJobs] at h
    cases hx : execute st (JobBuildRequestMessage.mk repo_url reference j) with
    | ok pr =>
      obtain ⟨res, st'⟩ := pr
      rw [hx] at h
      simp only [List.mem_cons] at h
      rcases h with h | h | h
      · cases h
      · cases h
      · exact ih st' s h
    | error e =>
      rw [hx] at h
      simp at h

lemma dispatchLoop_status (s : ExecutorStatus) :
    ∀ (reads : List (ReadResult J R)),
      Event.send (ExecutorMessage.ExecutorStatusResponse s) ∈
        (dispatchLoop new execute reads).1 →
      s = ExecutorStatus.Available := by
  intro reads
  induction reads with
  | nil =>
    intro h
    simp [dispatchLoop] at h
  | cons r rest ih =>
    intro h
    cases r with
    | ok msg =>
      cases msg with
      | ExecutorRegister => simp [dispatchLoop, step] at h
      | ExecutorRegisterResponse id => simp [dispatchLoop, step] at h
      | BuildRequest req =>
        simp only [dispatchLoop, step] at h
        cases hr : runJobs execute req.repo_url req.reference
            (new SimpleDockerExecutorConfig.mk) req.repo_config.jobs with
        | mk events e? =>
          rw [hr] at h
          cases e? with
          | none =>
            simp only [List.mem_append] at h
            rcases h with h | h
            · exact absurd (by rw [hr]; exact h)
                (fun hm => runJobs_no_status execute req.repo_url
                  req.reference req.repo_config.jobs
                  (new SimpleDockerExecutorConfig.mk) s hm)
            · exact ih h
          | some e =>
            exact absurd (by rw [hr]; exact h)
              (fun hm => runJobs_no_status execute req.repo_url
                req.reference req.repo_config.jobs
                (new SimpleDockerExecutorConfig.mk) s hm)
      | JobResult res => simp [dispatchLoop, step] at h
      | ExecutorStatusQuery =>
        simp only [dispatchLoop, step, List.singleton_append,
          List.mem_cons] at h
        rcases h with h | h
        · simp only [Event.send.injEq,
            ExecutorMessage.ExecutorStatusResponse.injEq] at h
          exact h
        · exact ih h
      | ExecutorStatusResponse stt => simp [dispatchLoop, step] at h
      | CloseConnection id => simp [dispatchLoop, step] at h
    | err e =>
      cases e with
      | InvalidMarkerRead k =>
        cases k <;> simp [dispatchLoop, step, classifyError] at h
      | InvalidDataRead k => simp [dispatchLoop, step, classifyError] at h
      | OtherError d => simp [dispatchLoop, step, classifyError] at h

lemma threaded_runJobs (repo_url reference : String) :
    ∀ (jobs : List J) (st : σ),
      threaded execute st
        (execCalls (runJobs execute repo_url reference st jobs).1) := by
  intro jobs
  induction jobs with
  | nil =>
    intro st
    simp [runJobs, execCalls, threaded]
  | cons j rest ih =>
    intro st
    cases hx : execute st (JobBuildRequestMessage.mk repo_url reference j) with
    | ok pr =>
      obtain ⟨res, st'⟩ := pr
      simp only [runJobs, hx, execCalls, threaded]
      refine ⟨trivial, fun res2 st2 heq => ?_, fun e heq => ?_⟩
      · simp only [Except.ok.injEq, Prod.mk.injEq] at heq
        rw [← heq.2]
        exact ih st'
      · cases heq
    | error e =>
      simp only [runJobs, hx, execCalls, threaded]
      exact ⟨trivial, fun res2 st2 heq => trivial, fun e2 heq => trivial⟩

end Lemmas

/-- A concrete `BuildRequest` payload for instantiations. -/
def demoReq : BuildRequestMessage Nat :=
  BuildRequestMessage.mk ("u") ("r") (RepoConfig.mk [1, 2])

/-! ## The claims -/

section Claims

variable {σ : Type w} {J : Type u} {R : Type v} {ε : Type x}

/-- Claim C1: for a `BuildRequest` whose `repo_config.jobs` is `jobs`, the
dispatch loop executes the jobs strictly in list order, each job's request
pairing the request's `repo_url` and `reference` with that one job, and
sends exactly one `JobResult` for each job before the next job's execution
begins (interleaved trace `buildEvents`), then returns to `Idle` for the
remaining input. -/
theorem claim_C1_build_order
    (new : SimpleDockerExecutorConfig → σ)
    (execute : σ → JobBuildRequestMessage J → Except ε (R × σ))
    (repo_url reference : String) (jobs : List J)
    (pairs : List (σ × R)) (stF : σ) (rest : List (ReadResult J R))
    (h : jobTrace execute repo_url reference
      (new SimpleDockerExecutorConfig.mk) jobs = some (pairs, stF)) :
    dispatchLoop new execute
        (ReadResult.ok (ExecutorMessage.BuildRequest
          (BuildRequestMessage.mk repo_url reference (RepoConfig.mk jobs)))
          :: rest) =
      (buildEvents repo_url reference jobs pairs ++
          (dispatchLoop new execute rest).1,
        (dispatchLoop new execute rest).2) ∧
    sentMessages
        (buildEvents repo_url reference jobs pairs : List (Event σ J R)) =
      pairs.map fun p => ExecutorMessage.JobResult p.2 := by
  constructor
  · have hr := runJobs_of_jobTrace execute repo_url reference jobs
      (new SimpleDockerExecutorConfig.mk) pairs stF h
    simp [dispatchLoop, step, hr]
  · exact sentMessages_buildEvents repo_url reference jobs pairs
      (jobTrace_length execute repo_url reference jobs _ pairs stF h)

/-- Witness for C1 at a concrete executor and the job list `[1, 2]`. -/
theorem claim_C1_build_order_witness :
    dispatchLoop demoNew demoExec
        (ReadResult.ok (ExecutorMessage.BuildRequest
          (BuildRequestMessage.mk ("u") ("r") (RepoConfig.mk [1, 2])))
          :: []) =
      (buildEvents ("u") ("r") [1, 2] [(7, 8), (8, 10)] ++
          (dispatchLoop demoNew demoExec []).1,
        (dispatchLoop demoNew demoExec []).2) ∧
    sentMessages
        (buildEvents ("u") ("r") [1, 2] [(7, 8), (8, 10)] :
          List (Event Nat Nat Nat)) =
      [(7, 8), (8, 10)].map fun p => ExecutorMessage.JobResult p.2 :=
  claim_C1_build_order demoNew demoExec ("u") ("r") [1, 2]
    [(7, 8), (8, 10)] 9 [] (by decide)

/-- Claim C2: if some job `jk` fails after the prefix `pre` succeeded, the
loop sends exactly the `JobResult`s for the jobs before `jk`, executes
neither `jk`'s successors nor sends anything for them, abandons the rest of
the input, and the run fails with exit status 1 (fail-fast, no retry). -/
theorem claim_C2_fail_fast
    (new : SimpleDockerExecutorConfig → σ)
    (execute : σ → JobBuildRequestMessage J → Except ε (R × σ))
    (repo_url reference : String) (pre : List J) (jk : J) (post : List J)
    (pairs : List (σ × R)) (stMid : σ) (e : ε) (rest : List (ReadResult J R))
    (h1 : jobTrace execute repo_url reference
      (new SimpleDockerExecutorConfig.mk) pre = some (pairs, stMid))
    (h2 : execute stMid (JobBuildRequestMessage.mk repo_url reference jk) =
      Except.error e) :
    dispatchLoop new execute
        (ReadResult.ok (ExecutorMessage.BuildRequest
          (BuildRequestMessage.mk repo_url reference
            (RepoConfig.mk (pre ++ jk :: post)))) :: rest) =
      (buildEvents repo_url reference pre pairs ++
          [Event.exec stMid (JobBuildRequestMessage.mk repo_url reference jk)],
        RunOutcome.execFailed e) ∧
    sentMessages (buildEvents repo_url reference pre pairs ++
        [Event.exec stMid (JobBuildRequestMessage.mk repo_url reference jk)]) =
      pairs.map (fun p => ExecutorMessage.JobResult p.2) ∧
    exitCode (RunOutcome.execFailed e) = some 1 := by
  have happ := runJobs_append execute repo_url reference pre (jk :: post)
    (new SimpleDockerExecutorConfig.mk) pairs stMid h1
  have hjk : runJobs execute repo_url reference stMid (jk :: post) =
      ([Event.exec stMid (JobBuildRequestMessage.mk repo_url reference jk)],
        some e) := by
    simp [runJobs, h2]
  rw [hjk] at happ
  refine ⟨?_, ?_, rfl⟩
  · simp [dispatchLoop, step, happ]
  · rw [sentMessages_append,
      sentMessages_buildEvents repo_url reference pre pairs
        (jobTrace_length execute repo_url reference pre _ pairs stMid h1)]
    simp [sentMessages]

/-- Witness for C2: jobs `[1, 2] ++ 5 :: [3]` with an executor failing on
job `5`; only the results for `1` and `2` are sent. -/
theorem claim_C2_fail_fast_witness :
    dispatchLoop demoNew demoFailExec
        (ReadResult.ok (ExecutorMessage.BuildRequest
          (BuildRequestMessage.mk ("u") ("r")
            (RepoConfig.mk ([1, 2] ++ 5 :: [3])))) :: []) =
      (buildEvents ("u") ("r") [1, 2] [(7, 8), (8, 10)] ++
          [Event.exec 9 (JobBuildRequestMessage.mk ("u") ("r") 5)],
        RunOutcome.execFailed 9) ∧
    sentMessages (buildEvents ("u") ("r") [1, 2] [(7, 8), (8, 10)] ++
        [Event.exec 9 (JobBuildRequestMessage.mk ("u") ("r") 5)]) =
      [(7, 8), (8, 10)].map (fun p => ExecutorMessage.JobResult p.2) ∧
    exitCode (RunOutcome.execFailed (9 : Nat)) = some 1 :=
  claim_C2_fail_fast demoNew demoFailExec ("u") ("r") [1, 2] 5 [3]
    [(7, 8), (8, 10)] 9 9 [] (by decide) (by rfl)

/-- Claim C3: an `InvalidMarkerRead` failure (while waiting for the next
command) whose I/O kind is connection reset, connection aborted or clean
end-of-stream exits the loop gracefully: the run returns success and the
process exit status is 0. -/
theorem claim_C3_graceful_disconnect
    (new : SimpleDockerExecutorConfig → σ)
    (execute : σ → JobBuildRequestMessage J → Except ε (R × σ))
    (k : IOErrorKind) (rest : List (ReadResult J R))
    (h : k = IOErrorKind.ConnectionReset ∨ k = IOErrorKind.ConnectionAborted ∨
      k = IOErrorKind.UnexpectedEof) :
    dispatchLoop new execute
        (ReadResult.err (DecodeError.InvalidMarkerRead k) :: rest) =
      ([], RunOutcome.ok) ∧
    exitCode (RunOutcome.ok : RunOutcome ε) = some 0 := by
  refine ⟨?_, rfl⟩
  rcases h with h | h | h <;> subst h <;>
    simp [dispatchLoop, step, classifyError]

/-- Witness for C3 with a connection-reset marker read. -/
theorem claim_C3_graceful_disconnect_witness :
    dispatchLoop demoNew demoExec
        (ReadResult.err (DecodeError.InvalidMarkerRead
          IOErrorKind.ConnectionReset) :: []) =
      ([], RunOutcome.ok) ∧
    exitCode (RunOutcome.ok : RunOutcome Nat) = some 0 :=
  claim_C3_graceful_disconnect demoNew demoExec IOErrorKind.ConnectionReset []
    (Or.inl rfl)

/-- Claim C4: after the handshake, any decoded variant other than
`BuildRequest`, `StatusQuery` or `CloseConnection`, and any read/decode
failure not matching the graceful-disconnect signature, aborts the process
(panic, exit status 101, non-zero) with nothing further processed — no
retry or reconnect. -/
theorem claim_C4_protocol_violation
    (new : SimpleDockerExecutorConfig → σ)
    (execute : σ → JobBuildRequestMessage J → Except ε (R × σ))
    (rest : List (ReadResult J R)) :
    (∀ msg : ExecutorMessage J R,
      (∀ req, msg ≠ ExecutorMessage.BuildRequest req) →
      msg ≠ ExecutorMessage.ExecutorStatusQuery →
      (∀ id, msg ≠ ExecutorMessage.CloseConnection id) →
      dispatchLoop new execute (ReadResult.ok msg :: rest) =
        ([], RunOutcome.panicked)) ∧
    (∀ e : DecodeError,
      (∀ k, e = DecodeError.InvalidMarkerRead k →
        ¬(k = IOErrorKind.ConnectionReset ∨ k = IOErrorKind.ConnectionAborted ∨
          k = IOErrorKind.UnexpectedEof)) →
      dispatchLoop new execute (ReadResult.err e :: rest) =
        ([], RunOutcome.panicked)) ∧
    exitCode (RunOutcome.panicked : RunOutcome ε) = some 101 := by
  refine ⟨?_, ?_, rfl⟩
  · intro msg hb hs hc
    cases msg with
    | ExecutorRegister => simp [dispatchLoop, step]
    | ExecutorRegisterResponse id => simp [dispatchLoop, step]
    | BuildRequest req => exact absurd rfl (hb req)
    | JobResult res => simp [dispatchLoop, step]
    | ExecutorStatusQuery => exact absurd rfl hs
    | ExecutorStatusResponse stt => simp [dispatchLoop, step]
    | CloseConnection id => exact absurd rfl (hc id)
  · intro e he
    simp [dispatchLoop, step, classifyError_panic e he]

/-- Witness for C4: a stray `ExecutorRegister` and a non-disconnect decode
error both panic. -/
theorem claim_C4_protocol_violation_witness :
    dispatchLoop demoNew demoExec
        [ReadResult.ok (ExecutorMessage.ExecutorRegister :
          ExecutorMessage Nat Nat)] =
      ([], RunOutcome.panicked) ∧
    dispatchLoop demoNew demoExec
        [ReadResult.err (DecodeError.OtherError ("boom"))] =
      ([], RunOutcome.panicked) :=
  ⟨(claim_C4_protocol_violation demoNew demoExec []).1
      ExecutorMessage.ExecutorRegister
      (fun req h => by cases h) (by intro h; cases h) (fun id h => by cases h),
    (claim_C4_protocol_violation demoNew demoExec []).2.1
      (DecodeError.OtherError ("boom")) (fun k h => by cases h)⟩

/-- Claim C5: the handshake blocks on exactly one message after sending
`RegisterRequest`; a `RegisterResponse{id}` binds the session to that `id`,
while any other decoded variant or decode failure is fatal (panic, non-zero
exit) with no message written beyond the initial `RegisterRequest`. -/
theorem claim_C5_handshake
    (new : SimpleDockerExecutorConfig → σ)
    (execute : σ → JobBuildRequestMessage J → Except ε (R × σ)) :
    (∀ (id : String) (rest : List (ReadResult J R)),
      (run new execute (ReadResult.ok
        (ExecutorMessage.ExecutorRegisterResponse id) :: rest)).2.1 =
          some id) ∧
    (∀ (r : ReadResult J R) (rest : List (ReadResult J R)),
      (∀ id, r ≠ ReadResult.ok (ExecutorMessage.ExecutorRegisterResponse id)) →
      run new execute (r :: rest) =
        ([Event.send ExecutorMessage.ExecutorRegister], none,
          RunOutcome.panicked)) ∧
    exitCode (RunOutcome.panicked : RunOutcome ε) = some 101 := by
  refine ⟨fun id rest => rfl, ?_, rfl⟩
  intro r rest hr
  cases r with
  | ok msg =>
    cases msg with
    | ExecutorRegister => rfl
    | ExecutorRegisterResponse id => exact absurd rfl (hr id)
    | BuildRequest req => rfl
    | JobResult res => rfl
    | ExecutorStatusQuery => rfl
    | ExecutorStatusResponse stt => rfl
    | CloseConnection id => rfl
  | err e => rfl

/-- Witness for C5: a peer answering `RegisterResponse{id: "X"}` binds the
identity to `"X"`; a peer answering `RegisterRequest` is fatal. -/
theorem claim_C5_handshake_witness :
    (run demoNew demoExec [ReadResult.ok
      (ExecutorMessage.ExecutorRegisterResponse ("X"))]).2.1 = some ("X") ∧
    run demoNew demoExec
        [ReadResult.ok (ExecutorMessage.ExecutorRegister :
          ExecutorMessage Nat Nat)] =
      ([Event.send ExecutorMessage.ExecutorRegister], none,
        RunOutcome.panicked) :=
  ⟨(claim_C5_handshake demoNew demoExec).1 ("X") [],
    (claim_C5_handshake demoNew demoExec).2.1
      (ReadResult.ok ExecutorMessage.ExecutorRegister) []
      (fun id h => by cases h)⟩

/-- Claim C6: every `StatusQuery` received in `Idle` is answered by exactly
one `StatusResponse(Available)`, after which the loop is back in `Idle`
processing the remaining input exactly as before (so a subsequent
`StatusQuery` yields the same single response); and `Available` is the only
status value the loop ever sends. -/
theorem claim_C6_status_roundtrip
    (new : SimpleDockerExecutorConfig → σ)
    (execute : σ → JobBuildRequestMessage J → Except ε (R × σ)) :
    (∀ rest : List (ReadResult J R),
      dispatchLoop new execute
          (ReadResult.ok ExecutorMessage.ExecutorStatusQuery :: rest) =
        (Event.send (ExecutorMessage.ExecutorStatusResponse
            ExecutorStatus.Available) :: (dispatchLoop new execute rest).1,
          (dispatchLoop new execute rest).2)) ∧
    (∀ (reads : List (ReadResult J R)) (s : ExecutorStatus),
      Event.send (ExecutorMessage.ExecutorStatusResponse s) ∈
        (dispatchLoop new execute reads).1 →
      s = ExecutorStatus.Available) := by
  constructor
  · intro rest
    simp [dispatchLoop, step]
  · intro reads s h
    exact dispatchLoop_status new execute s reads h

/-- Witness for C6: two consecutive queries yield two identical
`Available` responses, and the response observed in a concrete trace is
`Available`. -/
theorem claim_C6_status_roundtrip_witness :
    dispatchLoop demoNew demoExec
        (ReadResult.ok ExecutorMessage.ExecutorStatusQuery ::
          [ReadResult.ok (ExecutorMessage.ExecutorStatusQuery :
            ExecutorMessage Nat Nat)]) =
      (Event.send (ExecutorMessage.ExecutorStatusResponse
          ExecutorStatus.Available) ::
          (dispatchLoop demoNew demoExec
            [ReadResult.ok ExecutorMessage.ExecutorStatusQuery]).1,
        (dispatchLoop demoNew demoExec
          [ReadResult.ok ExecutorMessage.ExecutorStatusQuery]).2) ∧
    ExecutorStatus.Available = ExecutorStatus.Available :=
  ⟨(claim_C6_status_roundtrip demoNew demoExec).1
      [ReadResult.ok ExecutorMessage.ExecutorStatusQuery],
    (claim_C6_status_roundtrip demoNew demoExec).2
      [ReadResult.ok ExecutorMessage.ExecutorStatusQuery]
      ExecutorStatus.Available (by decide)⟩

/-- Claim C7: `CloseConnection{id}` received in `Idle` ends the loop with
success and exit status 0 for every value of the `id` payload — the payload
is never compared against the session identity (the result is uniform in
`id`, and the loop state does not even carry the identity). -/
theorem claim_C7_close_any_id
    (new : SimpleDockerExecutorConfig → σ)
    (execute : σ → JobBuildRequestMessage J → Except ε (R × σ)) :
    ∀ (id : String) (rest : List (ReadResult J R)),
      dispatchLoop new execute
          (ReadResult.ok (ExecutorMessage.CloseConnection id) :: rest) =
        ([], RunOutcome.ok) ∧
      exitCode (RunOutcome.ok : RunOutcome ε) = some 0 := by
  intro id rest
  exact ⟨by simp [dispatchLoop, step], rfl⟩

/-- Claim C8: with no configuration file present, `get_config` succeeds and
yields the defaults: the host from `WATERCI_CORE_HOST` if set, else
`127.0.0.1`; the port from `WATERCI_CORE_PORT` if set (and parsing as a
`u32`), else 5633. -/
theorem claim_C8_config_defaults
    (parseYaml : String → Except String Config) (env : Env) :
    get_config parseYaml env FileState.absent =
      Except.ok (Config.default env) ∧
    (∀ h, env.core_host = some h → (Config.default env).core_host = h) ∧
    (env.core_host = none → (Config.default env).core_host = "127.0.0.1") ∧
    (∀ s n, env.core_port = some s → parseU32 s = some n →
      (Config.default env).core_port = n) ∧
    (env.core_port = none → (Config.default env).core_port = 5633) := by
  refine ⟨rfl, ?_, ?_, ?_, ?_⟩
  · intro h hh
    simp [Config.default, default_core_host, hh]
  · intro hh
    simp [Config.default, default_core_host, hh]
  · intro s n hs hp
    simp [Config.default, default_core_port, hs, hp]
  · intro hp
    simp [Config.default, default_core_port, hp]

/-- Witness for C8 at a set environment and an unset environment. -/
theorem claim_C8_config_defaults_witness :
    get_config demoParseYaml
        (Env.mk (some ("10.0.0.9")) (some ("8080"))) FileState.absent =
      Except.ok (Config.default
        (Env.mk (some ("10.0.0.9")) (some ("8080")))) ∧
    (Config.default (Env.mk (some ("10.0.0.9")) (some ("8080")))).core_host =
      "10.0.0.9" ∧
    (Config.default (Env.mk (some ("10.0.0.9")) (some ("8080")))).core_port =
      8080 ∧
    (Config.default (Env.mk none none)).core_host = "127.0.0.1" ∧
    (Config.default (Env.mk none none)).core_port = 5633 :=
  ⟨(claim_C8_config_defaults demoParseYaml _).1,
    (claim_C8_config_defaults demoParseYaml _).2.1 _ rfl,
    (claim_C8_config_defaults demoParseYaml _).2.2.2.1 _ 8080 rfl (by decide),
    (claim_C8_config_defaults demoParseYaml _).2.2.1 rfl,
    (claim_C8_config_defaults demoParseYaml _).2.2.2.2 rfl⟩

/-- Claim C9: when `WATERCI_CORE_PORT` is set but its value does not parse
as an unsigned 32-bit integer, `Config::default_core_port` silently returns
the fixed default 5633 (it is total: no error is reported). -/
theorem claim_C9_port_parse_fallback (s : String) (h : parseU32 s = none) :
    default_core_port (some s) = 5633 := by
  simp [default_core_port, h]

/-- Witness for C9 with the unparsable value `abc`. -/
theorem claim_C9_port_parse_fallback_witness :
    parseU32 ("abc") = none ∧ default_core_port (some ("abc")) = 5633 :=
  ⟨by decide, claim_C9_port_parse_fallback ("abc") (by decide)⟩

/-- Claim C10: a fresh `SimpleDockerExecutor::new(SimpleDockerExecutorConfig
{})` instance is constructed for every `BuildRequest` before its jobs run:
the request's handling is exactly the handling it would receive as the very
first message (no executor-internal state carried over from earlier
messages), its job executions start from the fresh state `new {}`, and
within the one request the same instance is used for all jobs (each
invocation runs on the state returned by the previous one). -/
theorem claim_C10_fresh_executor
    (new : SimpleDockerExecutorConfig → σ)
    (execute : σ → JobBuildRequestMessage J → Except ε (R × σ))
    (rs1 rs2 : List (ReadResult J R)) (req : BuildRequestMessage J)
    (hc : ∀ r ∈ rs1, stepContinues new execute r = true) :
    dispatchLoop new execute
        (rs1 ++ ReadResult.ok (ExecutorMessage.BuildRequest req) :: rs2) =
      ((dispatchLoop new execute rs1).1 ++
          (dispatchLoop new execute
            (ReadResult.ok (ExecutorMessage.BuildRequest req) :: rs2)).1,
        (dispatchLoop new execute
          (ReadResult.ok (ExecutorMessage.BuildRequest req) :: rs2)).2) ∧
    (∃ tail, (dispatchLoop new execute
        (ReadResult.ok (ExecutorMessage.BuildRequest req) :: rs2)).1 =
      (runJobs execute req.repo_url req.reference
        (new SimpleDockerExecutorConfig.mk) req.repo_config.jobs).1 ++
        tail) ∧
    threaded execute (new SimpleDockerExecutorConfig.mk)
      (execCalls (runJobs execute req.repo_url req.reference
        (new SimpleDockerExecutorConfig.mk) req.repo_config.jobs).1) := by
  refine ⟨dispatchLoop_append new execute rs1 _ hc, ?_,
    threaded_runJobs execute req.repo_url req.reference
      req.repo_config.jobs _⟩
  cases hr : runJobs execute req.repo_url req.reference
      (new SimpleDockerExecutorConfig.mk) req.repo_config.jobs with
  | mk events e? =>
    cases e? with
    | none =>
      refine ⟨(dispatchLoop new execute rs2).1, ?_⟩
      simp [dispatchLoop, step, hr]
    | some e =>
      refine ⟨[], ?_⟩
      simp [dispatchLoop, step, hr]

/-- Witness for C10: a `StatusQuery` precedes the `BuildRequest`; the
request is handled exactly as in first position, from the fresh state. -/
theorem claim_C10_fresh_executor_witness :
    dispatchLoop demoNew demoExec
        ([ReadResult.ok ExecutorMessage.ExecutorStatusQuery] ++
          ReadResult.ok (ExecutorMessage.BuildRequest demoReq) :: []) =
      ((dispatchLoop demoNew demoExec
          [ReadResult.ok ExecutorMessage.ExecutorStatusQuery]).1 ++
          (dispatchLoop demoNew demoExec
            (ReadResult.ok (ExecutorMessage.BuildRequest demoReq) :: [])).1,
        (dispatchLoop demoNew demoExec
          (ReadResult.ok (ExecutorMessage.BuildRequest demoReq) :: [])).2) ∧
    (∃ tail, (dispatchLoop demoNew demoExec
        (ReadResult.ok (ExecutorMessage.BuildRequest demoReq) :: [])).1 =
      (runJobs demoExec demoReq.repo_url demoReq.reference
        (demoNew SimpleDockerExecutorConfig.mk)
        demoReq.repo_config.jobs).1 ++ tail) ∧
    threaded demoExec (demoNew SimpleDockerExecutorConfig.mk)
      (execCalls (runJobs demoExec demoReq.repo_url demoReq.reference
        (demoNew SimpleDockerExecutorConfig.mk)
        demoReq.repo_config.jobs).1) :=
  claim_C10_fresh_executor demoNew demoExec
    [ReadResult.ok ExecutorMessage.ExecutorStatusQuery] [] demoReq
    (by decide)

end Claims

end SimpleExecutor
